import Mathlib

/-!
# equal_m128: comparison primitives, dataset generators and timed loops

A shallow embedding of `src/main.cpp`.

* A `double` is represented by its 64-bit pattern, a natural number below `2^64`.
* A `double*` / `double const&` is a `DoublePtr`: a buffer of doubles and an index into it.
  Reading outside the buffer yields `none`.  Alignment of the vector loads is not modelled.
* The SSE2/AVX intrinsics are modelled lane by lane from their documented semantics,
  with the default floating-point environment (no denormals-are-zero mode).
* A dataset is a list of quads; its `double*` view has sixteen slots per quad, the four fields
  at slots 0, 4, 8, 12 and padding of arbitrary content in between.
-/

namespace EqualM128

/-! ## IEEE-754 binary64 -/

/-- The value a binary64 bit pattern stands for.  Finite values are kept exactly,
scaled by `2^1074` so that every finite double is an integer. -/
inductive F64Val where
  | nan : F64Val
  | inf (neg : Bool) : F64Val
  | fin (scaled : Int) : F64Val
  deriving DecidableEq

/-- Sign bit (bit 63). -/
def f64_sign (x : Nat) : Nat := x / 2 ^ 63 % 2

/-- Biased exponent (bits 52..62). -/
def f64_exp (x : Nat) : Nat := x / 2 ^ 52 % 2048

/-- Fraction field (bits 0..51). -/
def f64_frac (x : Nat) : Nat := x % 2 ^ 52

/-- Magnitude of a finite double, scaled by `2^1074`: subnormals are `frac * 2^-1074`,
normals are `(2^52 + frac) * 2^(exp - 1075)`. -/
def f64_mag (x : Nat) : Nat :=
  if f64_exp x = 0 then f64_frac x else (2 ^ 52 + f64_frac x) * 2 ^ (f64_exp x - 1)

/-- Decoding of a binary64 bit pattern. -/
def f64_decode (x : Nat) : F64Val :=
  if f64_exp x = 2047 then
    if f64_frac x = 0 then F64Val.inf (f64_sign x == 1) else F64Val.nan
  else
    F64Val.fin (if f64_sign x = 1 then -(f64_mag x : Int) else (f64_mag x : Int))

/-- The bit pattern holds a NaN. -/
def f64_isNaN (x : Nat) : Bool := decide (f64_decode x = F64Val.nan)

/-- The C++ expression `a == b` on doubles (IEEE-754 equality): false when either operand is
a NaN, otherwise equality of the values. -/
def f64_eq (x y : Nat) : Bool :=
  !f64_isNaN x && !f64_isNaN y && decide (f64_decode x = f64_decode y)

/-- Comparison predicate "not equal, unordered, non-signalling" (`_CMP_NEQ_UQ`, the predicate
of `cmpneqpd`): true when either operand is a NaN or the values differ. -/
def cmp_neq_uq (x y : Nat) : Bool :=
  f64_isNaN x || f64_isNaN y || decide (f64_decode x ≠ f64_decode y)

/-! ## Pointers to doubles -/

/-- A pointer to a double inside a buffer of doubles. -/
structure DoublePtr where
  buf : List Nat
  idx : Nat

/-- Pointer arithmetic `p + n`. -/
def DoublePtr.add (p : DoublePtr) (n : Nat) : DoublePtr := { buf := p.buf, idx := p.idx + n }

/-- The double `p[k]`, when it lies inside the buffer. -/
def DoublePtr.lane (p : DoublePtr) (k : Nat) : Option Nat := p.buf[p.idx + k]?

/-! ## Vector registers and intrinsics -/

/-- Register `__m128d`: two 64-bit lanes. -/
structure m128d where
  e0 : Nat
  e1 : Nat
  deriving DecidableEq

/-- Register `__m256d`: four 64-bit lanes. -/
structure m256d where
  e0 : Nat
  e1 : Nat
  e2 : Nat
  e3 : Nat
  deriving DecidableEq

/-- Lane mask produced by a packed comparison: all ones or all zeros. -/
def lane_mask (b : Bool) : Nat := if b then 0xFFFFFFFFFFFFFFFF else 0

/-- Intrinsic `_mm_load_pd`: loads two consecutive doubles. -/
def mm_load_pd (p : DoublePtr) : Option m128d :=
  match p.lane 0, p.lane 1 with
  | some x0, some x1 => some { e0 := x0, e1 := x1 }
  | _, _ => none

/-- Intrinsic `_mm256_load_pd`: loads four consecutive doubles. -/
def mm256_load_pd (p : DoublePtr) : Option m256d :=
  match p.lane 0, p.lane 1, p.lane 2, p.lane 3 with
  | some x0, some x1, some x2, some x3 => some { e0 := x0, e1 := x1, e2 := x2, e3 := x3 }
  | _, _, _, _ => none

/-- Intrinsic `_mm_cmpneq_pd`: lane-wise not-equal comparison. -/
def mm_cmpneq_pd (a b : m128d) : m128d :=
  { e0 := lane_mask (cmp_neq_uq a.e0 b.e0), e1 := lane_mask (cmp_neq_uq a.e1 b.e1) }

/-- Intrinsic `_mm256_cmp_pd` with predicate `_CMP_NEQ_UQ`. -/
def mm256_cmp_pd_neq_uq (a b : m256d) : m256d :=
  { e0 := lane_mask (cmp_neq_uq a.e0 b.e0), e1 := lane_mask (cmp_neq_uq a.e1 b.e1),
    e2 := lane_mask (cmp_neq_uq a.e2 b.e2), e3 := lane_mask (cmp_neq_uq a.e3 b.e3) }

/-- Intrinsic `_mm_movemask_pd`: bit `k` of the result is the sign bit of lane `k`. -/
def mm_movemask_pd (a : m128d) : Nat := a.e0 / 2 ^ 63 % 2 + 2 * (a.e1 / 2 ^ 63 % 2)

/-- Intrinsic `_mm256_movemask_pd`: bit `k` of the result is the sign bit of lane `k`. -/
def mm256_movemask_pd (a : m256d) : Nat :=
  a.e0 / 2 ^ 63 % 2 + 2 * (a.e1 / 2 ^ 63 % 2) + 4 * (a.e2 / 2 ^ 63 % 2) + 8 * (a.e3 / 2 ^ 63 % 2)

/-! ## The equality primitives -/

/-- The eight bytes of a double's object representation (little endian), as `memcpy` copies
them. -/
def double_bytes (x : Nat) : List Nat :=
  [x % 256, x / 2 ^ 8 % 256, x / 2 ^ 16 % 256, x / 2 ^ 24 % 256,
   x / 2 ^ 32 % 256, x / 2 ^ 40 % 256, x / 2 ^ 48 % 256, x / 2 ^ 56 % 256]

/-- The `__int64` whose object representation is the given eight bytes (two's complement). -/
def int64_of_bytes : List Nat → Int
  | [b0, b1, b2, b3, b4, b5, b6, b7] =>
    let u : Nat := b0 + b1 * 2 ^ 8 + b2 * 2 ^ 16 + b3 * 2 ^ 24 + b4 * 2 ^ 32 + b5 * 2 ^ 40
      + b6 * 2 ^ 48 + b7 * 2 ^ 56
    if u < 2 ^ 63 then (u : Int) else (u : Int) - 2 ^ 64
  | _ => 0

/-- Function `equal_m64`: copies the eight bytes of each double into an `__int64` and compares
the integers. -/
def equal_m64 (a_ b_ : DoublePtr) : Option Bool :=
  match a_.lane 0, b_.lane 0 with
  | some x, some y =>
    let a : Int := int64_of_bytes (double_bytes x)
    let b : Int := int64_of_bytes (double_bytes y)
    some (decide (a = b))
  | _, _ => none

/-- Function `equal_m128`:
`not _mm_movemask_pd(_mm_cmpneq_pd(_mm_load_pd(&a_), _mm_load_pd(&b_)))`. -/
def equal_m128 (a_ b_ : DoublePtr) : Option Bool :=
  match mm_load_pd a_, mm_load_pd b_ with
  | some va, some vb => some (mm_movemask_pd (mm_cmpneq_pd va vb) == 0)
  | _, _ => none

/-- Function `equal_m256`:
`not _mm256_movemask_pd(_mm256_cmp_pd(_mm256_load_pd(&a_), _mm256_load_pd(&b_), _CMP_NEQ_UQ))`. -/
def equal_m256 (a_ b_ : DoublePtr) : Option Bool :=
  match mm256_load_pd a_, mm256_load_pd b_ with
  | some va, some vb => some (mm256_movemask_pd (mm256_cmp_pd_neq_uq va vb) == 0)
  | _, _ => none

/-- Function `equal_m256_m128`:
`equal_m128(a_, b_) and equal_m128(*(&a_ + 2), *(&b_ + 2))`, the second call being evaluated
only when the first returns true. -/
def equal_m256_m128 (a_ b_ : DoublePtr) : Option Bool :=
  match equal_m128 a_ b_ with
  | none => none
  | some false => some false
  | some true => equal_m128 (a_.add 2) (b_.add 2)

/-- The C++ expression `rap[i] == rbp[i]` of the first and last pass: IEEE-754 equality of the
two doubles read. -/
def double_eq (a_ b_ : DoublePtr) : Option Bool :=
  match a_.lane 0, b_.lane 0 with
  | some x, some y => some (f64_eq x y)
  | _, _ => none

/-! ## Datasets -/

/-- Bit pattern of `std::numeric_limits<double>::max()`, the largest finite binary64 value. -/
def DBL_MAX : Nat := 0x7FEFFFFFFFFFFFFF

/-- Struct `aligned_quad<double>`: the four fields `a, b, c, d`, each a double. -/
structure aligned_quad where
  a : Nat
  b : Nat
  c : Nat
  d : Nat
  deriving DecidableEq

/-- The loop `for (i = 0; i < length_; ++i) v.emplace_back(max, max, max, max)` of
`fix_test_vector`, by the number of iterations still to run. -/
def fix_test_vector_loop : Nat → List aligned_quad → List aligned_quad
  | 0, v => v
  | n + 1, v =>
    fix_test_vector_loop n (v ++ [{ a := DBL_MAX, b := DBL_MAX, c := DBL_MAX, d := DBL_MAX }])

/-- Function `fix_test_vector`: `length_ /= 4`, then `length_` quads are appended to an empty
vector. -/
def fix_test_vector (length_ : Nat) : List aligned_quad :=
  let length_ := length_ / 4
  fix_test_vector_loop length_ []

/-- The sixteen double-sized slots one `aligned_quad<double>` occupies, the quad starting at
slot `o` of the view.  In `alignas(32) T a, b, c, d;` the alignment specifier applies to every
declarator, so each field is 32-byte aligned: the fields lie at byte offsets 0, 32, 64, 96
(slots 0, 4, 8, 12) and the quad is 128 bytes long.  The other twelve slots are padding, never
written by the constructor; `pad` gives whatever they hold, by slot index in the view. -/
def quad_slots (pad : Nat → Nat) (o : Nat) (q : aligned_quad) : List Nat :=
  [q.a, pad (o + 1), pad (o + 2), pad (o + 3),
   q.b, pad (o + 5), pad (o + 6), pad (o + 7),
   q.c, pad (o + 9), pad (o + 10), pad (o + 11),
   q.d, pad (o + 13), pad (o + 14), pad (o + 15)]

/-- The slots of the quads of a dataset, the first quad starting at slot `o`. -/
def data_from (pad : Nat → Nat) : Nat → List aligned_quad → List Nat
  | _, [] => []
  | o, q :: v => quad_slots pad o q ++ data_from pad (o + 16) v

/-- The `double*` view `(double*)v.data()` of a dataset: the storage of its quads read as a
flat array of doubles, sixteen slots per quad, with padding contents `pad`. -/
def data (pad : Nat → Nat) (v : List aligned_quad) : List Nat := data_from pad 0 v

/-! ## The timed loops of `main` -/

/-- The constant `N` of `main`. -/
def N_main : Nat := 10000000

/-- Loop variables: the index `i` (a `std::size_t`) and the running `result`. -/
structure LoopState where
  i : Nat
  result : Bool
  deriving DecidableEq

/-- Where a loop stands: still running in some state, exited with its final `result`, or
faulted on a read outside a buffer. -/
inductive Run where
  | running (s : LoopState) : Run
  | exit (result : Bool) : Run
  | fault : Run
  deriving DecidableEq

/-- Both loops start from `i = 0`, `result = true`. -/
def loop_init : LoopState := { i := 0, result := true }

/-- One round of
`for (...; i < N; i += stride) { bool r = prim(ap[i], bp[i]); result = result and r; }`:
the test of the condition, the body and the increment (in `std::size_t` arithmetic). -/
def scan_step (prim : DoublePtr → DoublePtr → Option Bool) (stride : Nat) (ap bp : List Nat)
    (N : Nat) (s : LoopState) : Run :=
  if s.i < N then
    match prim { buf := ap, idx := s.i } { buf := bp, idx := s.i } with
    | some r => Run.running { i := (s.i + stride) % 2 ^ 64, result := s.result && r }
    | none => Run.fault
  else Run.exit s.result

/-- One round of the first and last pass,
`for (...; i < N; i += result) { bool r = rap[i] == rbp[i]; result = result and r; }`:
the increment adds the updated `result`, converted to 1 or 0. -/
def self_stride_step (rap rbp : List Nat) (N : Nat) (s : LoopState) : Run :=
  if s.i < N then
    match double_eq { buf := rap, idx := s.i } { buf := rbp, idx := s.i } with
    | some r =>
      let result := s.result && r
      Run.running { i := (s.i + (if result then 1 else 0)) % 2 ^ 64, result := result }
    | none => Run.fault
  else Run.exit s.result

/-- Runs a loop for at most `n` rounds from state `s`. -/
def run_loop (step : LoopState → Run) : Nat → LoopState → Run
  | 0, s => Run.running s
  | n + 1, s =>
    match step s with
    | Run.running s' => run_loop step n s'
    | r => r

/-- The reported duration, `static_cast<std::uint64_t>(timer.get_elapsed_us()) / 100 * 100`,
from the elapsed microseconds after the cast, in `std::uint64_t` arithmetic. -/
def duration (elapsed_us : Nat) : Nat := elapsed_us / 100 * 100 % 2 ^ 64

/-! ## Bit-level description of the verdicts -/

/-- The pair is `+0.0` against `-0.0`: all bits clear on one side, only the sign bit set on
the other. -/
def signed_zero_pair (x y : Nat) : Bool :=
  (x == 0 && y == 0x8000000000000000) || (x == 0x8000000000000000 && y == 0)

/-- Neither pattern is a NaN, and the two are identical or are `+0.0` against `-0.0`. -/
def same_bits_or_signed_zeros (x y : Nat) : Bool :=
  !f64_isNaN x && !f64_isNaN y && (x == y || signed_zero_pair x y)

/-! ## Lemmas on `equal_m64` -/

theorem int64_of_double_bytes (x : Nat) (hx : x < 2 ^ 64) :
    int64_of_bytes (double_bytes x) = if x < 2 ^ 63 then (x : Int) else (x : Int) - 2 ^ 64 := by
  have hu : x % 256 + x / 2 ^ 8 % 256 * 2 ^ 8 + x / 2 ^ 16 % 256 * 2 ^ 16
      + x / 2 ^ 24 % 256 * 2 ^ 24 + x / 2 ^ 32 % 256 * 2 ^ 32 + x / 2 ^ 40 % 256 * 2 ^ 40
      + x / 2 ^ 48 % 256 * 2 ^ 48 + x / 2 ^ 56 % 256 * 2 ^ 56 = x := by
    norm_num at hx ⊢
    omega
  simp only [double_bytes, int64_of_bytes, hu]

theorem int64_of_double_bytes_inj (x y : Nat) (hx : x < 2 ^ 64) (hy : y < 2 ^ 64) :
    int64_of_bytes (double_bytes x) = int64_of_bytes (double_bytes y) ↔ x = y := by
  rw [int64_of_double_bytes x hx, int64_of_double_bytes y hy]
  norm_num at hx hy ⊢
  constructor
  · intro h
    split_ifs at h <;> omega
  · intro h
    subst h
    rfl

theorem equal_m64_lanes (a_ b_ : DoublePtr) (x y : Nat) (ha : a_.lane 0 = some x)
    (hb : b_.lane 0 = some y) (hx : x < 2 ^ 64) (hy : y < 2 ^ 64) :
    equal_m64 a_ b_ = some (decide (x = y)) := by
  simp only [equal_m64, ha, hb, int64_of_double_bytes_inj x y hx hy]

/-- C3: when `a_` and `b_` refer to doubles with 64-bit patterns `x` and `y`, `equal_m64`
returns a verdict, and the verdict is true if and only if the two bit patterns are
identical. -/
theorem equal_m64_true_iff_bits_identical (a_ b_ : DoublePtr) (x y : Nat)
    (ha : a_.lane 0 = some x) (hb : b_.lane 0 = some y) (hx : x < 2 ^ 64) (hy : y < 2 ^ 64) :
    (∃ r, equal_m64 a_ b_ = some r) ∧ (equal_m64 a_ b_ = some true ↔ x = y) := by
  rw [equal_m64_lanes a_ b_ x y ha hb hx hy]
  exact ⟨⟨_, rfl⟩, by simp⟩

theorem equal_m64_true_iff_bits_identical_witness :
    (∃ r, equal_m64 ⟨[5, 0x7FF8000000000000], 1⟩ ⟨[0x7FF8000000000000], 0⟩ = some r) ∧
    (equal_m64 ⟨[5, 0x7FF8000000000000], 1⟩ ⟨[0x7FF8000000000000], 0⟩ = some true ↔
      0x7FF8000000000000 = 0x7FF8000000000000) :=
  equal_m64_true_iff_bits_identical ⟨[5, 0x7FF8000000000000], 1⟩ ⟨[0x7FF8000000000000], 0⟩
    0x7FF8000000000000 0x7FF8000000000000 (by decide) (by decide) (by decide) (by decide)

/-! ## Lemmas on the vector primitives -/

theorem lane_mask_sign (b : Bool) : lane_mask b / 2 ^ 63 % 2 = if b then 1 else 0 := by
  cases b <;> decide

theorem cmp_neq_uq_eq_not_f64_eq (x y : Nat) : cmp_neq_uq x y = !f64_eq x y := by
  unfold cmp_neq_uq f64_eq
  cases f64_isNaN x <;> cases f64_isNaN y <;> simp

theorem movemask_cmpneq (va vb : m128d) :
    (mm_movemask_pd (mm_cmpneq_pd va vb) == 0) = (f64_eq va.e0 vb.e0 && f64_eq va.e1 vb.e1) := by
  simp only [mm_movemask_pd, mm_cmpneq_pd, lane_mask_sign, cmp_neq_uq_eq_not_f64_eq]
  cases f64_eq va.e0 vb.e0 <;> cases f64_eq va.e1 vb.e1 <;> decide

theorem movemask256_cmp (va vb : m256d) :
    (mm256_movemask_pd (mm256_cmp_pd_neq_uq va vb) == 0)
      = (f64_eq va.e0 vb.e0 && f64_eq va.e1 vb.e1 && f64_eq va.e2 vb.e2
          && f64_eq va.e3 vb.e3) := by
  simp only [mm256_movemask_pd, mm256_cmp_pd_neq_uq, lane_mask_sign, cmp_neq_uq_eq_not_f64_eq]
  cases f64_eq va.e0 vb.e0 <;> cases f64_eq va.e1 vb.e1 <;> cases f64_eq va.e2 vb.e2 <;>
    cases f64_eq va.e3 vb.e3 <;> decide

theorem lane_add (p : DoublePtr) (n k : Nat) : (p.add n).lane k = p.lane (n + k) := by
  simp [DoublePtr.add, DoublePtr.lane, Nat.add_assoc]

theorem lane_of_lt (p : DoublePtr) (k : Nat) (h : p.idx + k < p.buf.length) :
    p.lane k = some (p.buf.getD (p.idx + k) 0) := by
  simp [DoublePtr.lane, List.getD_eq_getElem?_getD, List.getElem?_eq_getElem h]

theorem equal_m128_lanes (a_ b_ : DoublePtr) (x0 x1 y0 y1 : Nat)
    (ha0 : a_.lane 0 = some x0) (ha1 : a_.lane 1 = some x1)
    (hb0 : b_.lane 0 = some y0) (hb1 : b_.lane 1 = some y1) :
    equal_m128 a_ b_ = some (f64_eq x0 y0 && f64_eq x1 y1) := by
  simp only [equal_m128, mm_load_pd, ha0, ha1, hb0, hb1, movemask_cmpneq]

theorem equal_m256_lanes (a_ b_ : DoublePtr) (x0 x1 x2 x3 y0 y1 y2 y3 : Nat)
    (ha0 : a_.lane 0 = some x0) (ha1 : a_.lane 1 = some x1)
    (ha2 : a_.lane 2 = some x2) (ha3 : a_.lane 3 = some x3)
    (hb0 : b_.lane 0 = some y0) (hb1 : b_.lane 1 = some y1)
    (hb2 : b_.lane 2 = some y2) (hb3 : b_.lane 3 = some y3) :
    equal_m256 a_ b_ = some (f64_eq x0 y0 && f64_eq x1 y1 && f64_eq x2 y2 && f64_eq x3 y3) := by
  simp only [equal_m256, mm256_load_pd, ha0, ha1, ha2, ha3, hb0, hb1, hb2, hb3, movemask256_cmp]

theorem equal_m256_m128_lanes (a_ b_ : DoublePtr) (x0 x1 x2 x3 y0 y1 y2 y3 : Nat)
    (ha0 : a_.lane 0 = some x0) (ha1 : a_.lane 1 = some x1)
    (ha2 : a_.lane 2 = some x2) (ha3 : a_.lane 3 = some x3)
    (hb0 : b_.lane 0 = some y0) (hb1 : b_.lane 1 = some y1)
    (hb2 : b_.lane 2 = some y2) (hb3 : b_.lane 3 = some y3) :
    equal_m256_m128 a_ b_
      = some (f64_eq x0 y0 && f64_eq x1 y1 && f64_eq x2 y2 && f64_eq x3 y3) := by
  have h1 := equal_m128_lanes a_ b_ x0 x1 y0 y1 ha0 ha1 hb0 hb1
  have h2 := equal_m128_lanes (a_.add 2) (b_.add 2) x2 x3 y2 y3
    (by rw [lane_add]; exact ha2) (by rw [lane_add]; exact ha3)
    (by rw [lane_add]; exact hb2) (by rw [lane_add]; exact hb3)
  unfold equal_m256_m128
  rw [h1, h2]
  cases f64_eq x0 y0 <;> cases f64_eq x1 y1 <;> simp

/-- C4: for every pair of four-lane inputs, whatever the bit patterns of the lanes,
`equal_m256_m128` (two `equal_m128` checks, on lanes 0-1 and on lanes 2-3) returns a verdict
and it is the verdict of `equal_m256`. -/
theorem equal_m256_m128_eq_equal_m256 (a_ b_ : DoublePtr)
    (ha : a_.idx + 4 ≤ a_.buf.length) (hb : b_.idx + 4 ≤ b_.buf.length) :
    (∃ r, equal_m256 a_ b_ = some r) ∧ equal_m256_m128 a_ b_ = equal_m256 a_ b_ := by
  have la : ∀ k, k < 4 → a_.lane k = some (a_.buf.getD (a_.idx + k) 0) :=
    fun k hk => lane_of_lt a_ k (by omega)
  have lb : ∀ k, k < 4 → b_.lane k = some (b_.buf.getD (b_.idx + k) 0) :=
    fun k hk => lane_of_lt b_ k (by omega)
  rw [equal_m256_m128_lanes a_ b_ _ _ _ _ _ _ _ _ (la 0 (by omega)) (la 1 (by omega))
      (la 2 (by omega)) (la 3 (by omega)) (lb 0 (by omega)) (lb 1 (by omega))
      (lb 2 (by omega)) (lb 3 (by omega)),
    equal_m256_lanes a_ b_ _ _ _ _ _ _ _ _ (la 0 (by omega)) (la 1 (by omega))
      (la 2 (by omega)) (la 3 (by omega)) (lb 0 (by omega)) (lb 1 (by omega))
      (lb 2 (by omega)) (lb 3 (by omega))]
  exact ⟨⟨_, rfl⟩, rfl⟩

theorem equal_m256_m128_eq_equal_m256_witness :
    (∃ r, equal_m256 ⟨[0, 0x7FF8000000000000, 3, 4, 5], 1⟩
        ⟨[0x8000000000000000, 0x7FF8000000000000, 3, 4], 0⟩ = some r) ∧
    equal_m256_m128 ⟨[0, 0x7FF8000000000000, 3, 4, 5], 1⟩
        ⟨[0x8000000000000000, 0x7FF8000000000000, 3, 4], 0⟩
      = equal_m256 ⟨[0, 0x7FF8000000000000, 3, 4, 5], 1⟩
        ⟨[0x8000000000000000, 0x7FF8000000000000, 3, 4], 0⟩ :=
  equal_m256_m128_eq_equal_m256 ⟨[0, 0x7FF8000000000000, 3, 4, 5], 1⟩
    ⟨[0x8000000000000000, 0x7FF8000000000000, 3, 4], 0⟩ (by decide) (by decide)

/-! ## IEEE-754 equality in terms of bit patterns -/

theorem f64_eq_self (x : Nat) : f64_eq x x = !f64_isNaN x := by
  unfold f64_eq
  cases f64_isNaN x <;> simp

theorem f64_fields (x : Nat) (hx : x < 2 ^ 64) :
    x = f64_sign x * 2 ^ 63 + f64_exp x * 2 ^ 52 + f64_frac x ∧ f64_sign x < 2 ∧
      f64_exp x < 2048 ∧ f64_frac x < 2 ^ 52 := by
  unfold f64_sign f64_exp f64_frac
  norm_num at hx ⊢
  omega

theorem mag_normal_lt (e e' m m' : Nat) (hm : m < 2 ^ 52) (he : 1 ≤ e) (hlt : e < e') :
    (2 ^ 52 + m) * 2 ^ (e - 1) < (2 ^ 52 + m') * 2 ^ (e' - 1) := by
  have h1 : 2 ^ (e' - 1) = 2 ^ (e' - e) * 2 ^ (e - 1) := by
    rw [← pow_add]
    congr 1
    omega
  have h2 : 2 ≤ 2 ^ (e' - e) := by
    calc 2 = 2 ^ 1 := rfl
      _ ≤ 2 ^ (e' - e) := Nat.pow_le_pow_right (by norm_num) (by omega)
  have h3 : 0 < 2 ^ (e - 1) := Nat.two_pow_pos _
  rw [h1, ← Nat.mul_assoc]
  apply Nat.mul_lt_mul_of_pos_right _ h3
  calc 2 ^ 52 + m < 2 ^ 52 * 2 := by omega
    _ ≤ 2 ^ 52 * 2 ^ (e' - e) := Nat.mul_le_mul_left _ h2
    _ ≤ (2 ^ 52 + m') * 2 ^ (e' - e) := Nat.mul_le_mul_right _ (by omega)

theorem mag_core_inj (e e' m m' : Nat) (hm : m < 2 ^ 52) (hm' : m' < 2 ^ 52)
    (h : (if e = 0 then m else (2 ^ 52 + m) * 2 ^ (e - 1))
      = (if e' = 0 then m' else (2 ^ 52 + m') * 2 ^ (e' - 1))) :
    e = e' ∧ m = m' := by
  have pos : ∀ n : Nat, 1 ≤ 2 ^ n := fun n => Nat.two_pow_pos _
  by_cases he : e = 0 <;> by_cases he' : e' = 0
  · simp only [he, he', if_true] at h
    exact ⟨by omega, h⟩
  · simp only [he, he', if_true, if_false] at h
    have := Nat.mul_le_mul (Nat.le_add_right (2 ^ 52) m') (pos (e' - 1))
    omega
  · simp only [he, he', if_true, if_false] at h
    have := Nat.mul_le_mul (Nat.le_add_right (2 ^ 52) m) (pos (e - 1))
    omega
  · simp only [he, he', if_false] at h
    rcases Nat.lt_trichotomy e e' with hlt | heq | hgt
    · have := mag_normal_lt e e' m m' hm (by omega) hlt
      omega
    · subst heq
      have := Nat.eq_of_mul_eq_mul_right (pos (e - 1)) h
      exact ⟨rfl, by omega⟩
    · have := mag_normal_lt e' e m' m hm' (by omega) hgt
      omega

theorem f64_mag_eq_zero (x : Nat) (h : f64_mag x = 0) : f64_exp x = 0 ∧ f64_frac x = 0 := by
  unfold f64_mag at h
  by_cases he : f64_exp x = 0
  · simp only [he, if_true] at h
    exact ⟨he, h⟩
  · simp only [he, if_false] at h
    have h1 : 1 ≤ 2 ^ (f64_exp x - 1) := Nat.two_pow_pos _
    have := Nat.mul_le_mul (Nat.le_add_right (2 ^ 52) (f64_frac x)) h1
    omega

theorem f64_isNaN_iff (x : Nat) :
    f64_isNaN x = true ↔ f64_exp x = 2047 ∧ f64_frac x ≠ 0 := by
  unfold f64_isNaN f64_decode
  by_cases he : f64_exp x = 2047 <;> by_cases hf : f64_frac x = 0 <;> simp [he, hf]

/-- Two non-NaN bit patterns decode to the same value exactly when they are identical or are
the two zeros, `+0.0` (all bits clear) and `-0.0` (only the sign bit set). -/
theorem f64_decode_inj (x y : Nat) (hx : x < 2 ^ 64) (hy : y < 2 ^ 64)
    (hn : f64_isNaN x = false) (h : f64_decode x = f64_decode y) :
    x = y ∨ (x = 0 ∧ y = 2 ^ 63) ∨ (x = 2 ^ 63 ∧ y = 0) := by
  obtain ⟨dx, sx, ex, mx⟩ := f64_fields x hx
  obtain ⟨dy, sy, ey, my⟩ := f64_fields y hy
  have hnx : ¬(f64_exp x = 2047 ∧ f64_frac x ≠ 0) := by
    rw [← f64_isNaN_iff, hn]
    exact Bool.false_ne_true
  unfold f64_decode at h
  by_cases e1 : f64_exp x = 2047
  · have f1 : f64_frac x = 0 := by
      by_contra hf
      exact hnx ⟨e1, hf⟩
    by_cases e2 : f64_exp y = 2047
    · by_cases f2 : f64_frac y = 0
      · simp only [e1, f1, e2, f2, if_true, F64Val.inf.injEq] at h
        left
        have hs : f64_sign x = f64_sign y := by
          by_cases s1 : f64_sign x = 1 <;> by_cases s2 : f64_sign y = 1 <;>
            simp [s1, s2] at h <;> omega
        rw [dx, dy, e1, e2, f1, f2, hs]
      · simp [e1, f1, e2, f2] at h
    · simp [e1, f1, e2] at h
  · by_cases e2 : f64_exp y = 2047
    · by_cases f2 : f64_frac y = 0 <;> simp [e1, e2, f2] at h
    · simp only [e1, e2, if_false, F64Val.fin.injEq] at h
      by_cases s1 : f64_sign x = 1 <;> by_cases s2 : f64_sign y = 1
      · simp only [s1, s2, if_true] at h
        have hm : f64_mag x = f64_mag y := by omega
        obtain ⟨a, b⟩ := mag_core_inj _ _ _ _ mx my hm
        left
        rw [dx, dy, a, b, s1, s2]
      · simp only [s1, s2, if_true, if_false] at h
        have hm : f64_mag x = 0 ∧ f64_mag y = 0 := by omega
        obtain ⟨a, b⟩ := f64_mag_eq_zero x hm.1
        obtain ⟨c, d⟩ := f64_mag_eq_zero y hm.2
        right; right
        norm_num at dx dy ⊢
        omega
      · simp only [s1, s2, if_true, if_false] at h
        have hm : f64_mag x = 0 ∧ f64_mag y = 0 := by omega
        obtain ⟨a, b⟩ := f64_mag_eq_zero x hm.1
        obtain ⟨c, d⟩ := f64_mag_eq_zero y hm.2
        right; left
        norm_num at dx dy ⊢
        omega
      · simp only [s1, s2, if_false] at h
        have hm : f64_mag x = f64_mag y := by omega
        obtain ⟨a, b⟩ := mag_core_inj _ _ _ _ mx my hm
        left
        have hs : f64_sign x = f64_sign y := by omega
        rw [dx, dy, a, b, hs]

theorem f64_eq_bits (x y : Nat) (hx : x < 2 ^ 64) (hy : y < 2 ^ 64) :
    f64_eq x y = same_bits_or_signed_zeros x y := by
  rw [Bool.eq_iff_iff]
  unfold f64_eq same_bits_or_signed_zeros signed_zero_pair
  simp only [Bool.and_eq_true, Bool.not_eq_true', decide_eq_true_eq, Bool.or_eq_true,
    beq_iff_eq]
  constructor
  · rintro ⟨⟨hnx, hny⟩, h⟩
    have := f64_decode_inj x y hx hy hnx h
    norm_num at this ⊢
    exact ⟨⟨hnx, hny⟩, this⟩
  · rintro ⟨⟨hnx, hny⟩, h⟩
    refine ⟨⟨hnx, hny⟩, ?_⟩
    rcases h with rfl | ⟨rfl, rfl⟩ | ⟨rfl, rfl⟩
    · rfl
    · decide
    · decide

/-! ## Verdicts on identical and on differing lanes -/

/-- C1 (amended): for inputs whose lanes hold identical 64-bit patterns, `equal_m64` (one
lane) returns true, a NaN pattern included; `equal_m128` (two lanes), `equal_m256` and
`equal_m256_m128` (four lanes) return true when no compared lane holds a NaN and false when
one does. -/
theorem identical_lanes_verdicts (a_ b_ : DoublePtr) (x0 x1 x2 x3 : Nat) :
    (a_.lane 0 = some x0 → b_.lane 0 = some x0 → equal_m64 a_ b_ = some true) ∧
    (a_.lane 0 = some x0 → a_.lane 1 = some x1 →
      b_.lane 0 = some x0 → b_.lane 1 = some x1 →
      equal_m128 a_ b_ = some (!f64_isNaN x0 && !f64_isNaN x1)) ∧
    (a_.lane 0 = some x0 → a_.lane 1 = some x1 → a_.lane 2 = some x2 → a_.lane 3 = some x3 →
      b_.lane 0 = some x0 → b_.lane 1 = some x1 → b_.lane 2 = some x2 → b_.lane 3 = some x3 →
      equal_m256 a_ b_
          = some (!f64_isNaN x0 && !f64_isNaN x1 && !f64_isNaN x2 && !f64_isNaN x3) ∧
        equal_m256_m128 a_ b_
          = some (!f64_isNaN x0 && !f64_isNaN x1 && !f64_isNaN x2 && !f64_isNaN x3)) := by
  refine ⟨?_, ?_, ?_⟩
  · intro ha hb
    simp only [equal_m64, ha, hb, decide_True]
  · intro ha0 ha1 hb0 hb1
    rw [equal_m128_lanes a_ b_ x0 x1 x0 x1 ha0 ha1 hb0 hb1, f64_eq_self, f64_eq_self]
  · intro ha0 ha1 ha2 ha3 hb0 hb1 hb2 hb3
    rw [equal_m256_lanes a_ b_ x0 x1 x2 x3 x0 x1 x2 x3 ha0 ha1 ha2 ha3 hb0 hb1 hb2 hb3,
      equal_m256_m128_lanes a_ b_ x0 x1 x2 x3 x0 x1 x2 x3 ha0 ha1 ha2 ha3 hb0 hb1 hb2 hb3]
    simp only [f64_eq_self, and_self]

theorem identical_lanes_verdicts_witness :
    equal_m64 ⟨[0x7FF8000000000000, 2, 3, 4], 0⟩ ⟨[0x7FF8000000000000, 2, 3, 4], 0⟩
      = some true ∧
    equal_m128 ⟨[0, 1, 2, 3, 4], 1⟩ ⟨[1, 2, 3, 4], 0⟩
      = some (!f64_isNaN 1 && !f64_isNaN 2) ∧
    equal_m256 ⟨[0, 1, 2, 3, 4], 1⟩ ⟨[1, 2, 3, 4], 0⟩
      = some (!f64_isNaN 1 && !f64_isNaN 2 && !f64_isNaN 3 && !f64_isNaN 4) ∧
    equal_m256_m128 ⟨[0, 1, 2, 3, 4], 1⟩ ⟨[1, 2, 3, 4], 0⟩
      = some (!f64_isNaN 1 && !f64_isNaN 2 && !f64_isNaN 3 && !f64_isNaN 4) :=
  ⟨(identical_lanes_verdicts ⟨[0x7FF8000000000000, 2, 3, 4], 0⟩
      ⟨[0x7FF8000000000000, 2, 3, 4], 0⟩ 0x7FF8000000000000 2 3 4).1 rfl rfl,
    (identical_lanes_verdicts ⟨[0, 1, 2, 3, 4], 1⟩ ⟨[1, 2, 3, 4], 0⟩ 1 2 3 4).2.1
      rfl rfl rfl rfl,
    (identical_lanes_verdicts ⟨[0, 1, 2, 3, 4], 1⟩ ⟨[1, 2, 3, 4], 0⟩ 1 2 3 4).2.2
      rfl rfl rfl rfl rfl rfl rfl rfl⟩

/-- C1 fails as stated: on lanes that all hold the same quiet-NaN pattern
`0x7FF8000000000000`, on both sides, the three vector primitives return false (while
`equal_m64` returns true). -/
theorem identical_nan_lanes_counterexample :
    f64_isNaN 0x7FF8000000000000 = true ∧
    equal_m64 ⟨[0x7FF8000000000000, 0x7FF8000000000000, 0x7FF8000000000000,
        0x7FF8000000000000], 0⟩
      ⟨[0x7FF8000000000000, 0x7FF8000000000000, 0x7FF8000000000000, 0x7FF8000000000000], 0⟩
      = some true ∧
    equal_m128 ⟨[0x7FF8000000000000, 0x7FF8000000000000, 0x7FF8000000000000,
        0x7FF8000000000000], 0⟩
      ⟨[0x7FF8000000000000, 0x7FF8000000000000, 0x7FF8000000000000, 0x7FF8000000000000], 0⟩
      = some false ∧
    equal_m256 ⟨[0x7FF8000000000000, 0x7FF8000000000000, 0x7FF8000000000000,
        0x7FF8000000000000], 0⟩
      ⟨[0x7FF8000000000000, 0x7FF8000000000000, 0x7FF8000000000000, 0x7FF8000000000000], 0⟩
      = some false ∧
    equal_m256_m128 ⟨[0x7FF8000000000000, 0x7FF8000000000000, 0x7FF8000000000000,
        0x7FF8000000000000], 0⟩
      ⟨[0x7FF8000000000000, 0x7FF8000000000000, 0x7FF8000000000000, 0x7FF8000000000000], 0⟩
      = some false := by
  decide

theorem lane_lt (p : DoublePtr) (hp : ∀ x ∈ p.buf, x < 2 ^ 64) (k x : Nat)
    (h : p.lane k = some x) : x < 2 ^ 64 :=
  hp x (List.getElem?_mem h)

/-- C2 (amended): for well-formed inputs in which at least one compared lane differs in at
least one bit, `equal_m64` returns false; `equal_m128`, `equal_m256` and `equal_m256_m128`
return false, except that they return true when no compared lane holds a NaN and every lane
pair that differs is `+0.0` against `-0.0`. -/
theorem differing_lanes_verdicts (a_ b_ : DoublePtr) (x0 x1 x2 x3 y0 y1 y2 y3 : Nat)
    (wa : ∀ x ∈ a_.buf, x < 2 ^ 64) (wb : ∀ y ∈ b_.buf, y < 2 ^ 64) :
    (a_.lane 0 = some x0 → b_.lane 0 = some y0 → x0 ≠ y0 → equal_m64 a_ b_ = some false) ∧
    (a_.lane 0 = some x0 → a_.lane 1 = some x1 →
      b_.lane 0 = some y0 → b_.lane 1 = some y1 → (x0 ≠ y0 ∨ x1 ≠ y1) →
      equal_m128 a_ b_
        = some (same_bits_or_signed_zeros x0 y0 && same_bits_or_signed_zeros x1 y1)) ∧
    (a_.lane 0 = some x0 → a_.lane 1 = some x1 → a_.lane 2 = some x2 → a_.lane 3 = some x3 →
      b_.lane 0 = some y0 → b_.lane 1 = some y1 → b_.lane 2 = some y2 → b_.lane 3 = some y3 →
      (x0 ≠ y0 ∨ x1 ≠ y1 ∨ x2 ≠ y2 ∨ x3 ≠ y3) →
      equal_m256 a_ b_
          = some (same_bits_or_signed_zeros x0 y0 && same_bits_or_signed_zeros x1 y1
            && same_bits_or_signed_zeros x2 y2 && same_bits_or_signed_zeros x3 y3) ∧
        equal_m256_m128 a_ b_
          = some (same_bits_or_signed_zeros x0 y0 && same_bits_or_signed_zeros x1 y1
            && same_bits_or_signed_zeros x2 y2 && same_bits_or_signed_zeros x3 y3)) := by
  refine ⟨?_, ?_, ?_⟩
  · intro ha hb hne
    rw [equal_m64_lanes a_ b_ x0 y0 ha hb (lane_lt a_ wa 0 x0 ha) (lane_lt b_ wb 0 y0 hb)]
    simp [hne]
  · intro ha0 ha1 hb0 hb1 _
    rw [equal_m128_lanes a_ b_ x0 x1 y0 y1 ha0 ha1 hb0 hb1,
      f64_eq_bits x0 y0 (lane_lt a_ wa 0 x0 ha0) (lane_lt b_ wb 0 y0 hb0),
      f64_eq_bits x1 y1 (lane_lt a_ wa 1 x1 ha1) (lane_lt b_ wb 1 y1 hb1)]
  · intro ha0 ha1 ha2 ha3 hb0 hb1 hb2 hb3 _
    rw [equal_m256_lanes a_ b_ x0 x1 x2 x3 y0 y1 y2 y3 ha0 ha1 ha2 ha3 hb0 hb1 hb2 hb3,
      equal_m256_m128_lanes a_ b_ x0 x1 x2 x3 y0 y1 y2 y3 ha0 ha1 ha2 ha3 hb0 hb1 hb2 hb3,
      f64_eq_bits x0 y0 (lane_lt a_ wa 0 x0 ha0) (lane_lt b_ wb 0 y0 hb0),
      f64_eq_bits x1 y1 (lane_lt a_ wa 1 x1 ha1) (lane_lt b_ wb 1 y1 hb1),
      f64_eq_bits x2 y2 (lane_lt a_ wa 2 x2 ha2) (lane_lt b_ wb 2 y2 hb2),
      f64_eq_bits x3 y3 (lane_lt a_ wa 3 x3 ha3) (lane_lt b_ wb 3 y3 hb3)]
    exact ⟨rfl, rfl⟩

theorem differing_lanes_verdicts_witness :
    equal_m64 ⟨[1, 2, 3, 4], 3⟩ ⟨[1, 2, 3, 5], 3⟩ = some false ∧
    equal_m128 ⟨[1, 2, 3, 4], 2⟩ ⟨[1, 2, 3, 5], 2⟩
      = some (same_bits_or_signed_zeros 3 3 && same_bits_or_signed_zeros 4 5) ∧
    equal_m256 ⟨[1, 2, 3, 4], 0⟩ ⟨[1, 2, 3, 5], 0⟩
      = some (same_bits_or_signed_zeros 1 1 && same_bits_or_signed_zeros 2 2
        && same_bits_or_signed_zeros 3 3 && same_bits_or_signed_zeros 4 5) ∧
    equal_m256_m128 ⟨[1, 2, 3, 4], 0⟩ ⟨[1, 2, 3, 5], 0⟩
      = some (same_bits_or_signed_zeros 1 1 && same_bits_or_signed_zeros 2 2
        && same_bits_or_signed_zeros 3 3 && same_bits_or_signed_zeros 4 5) :=
  ⟨(differing_lanes_verdicts ⟨[1, 2, 3, 4], 3⟩ ⟨[1, 2, 3, 5], 3⟩ 4 0 0 0 5 0 0 0
      (by decide) (by decide)).1 rfl rfl (by decide),
    (differing_lanes_verdicts ⟨[1, 2, 3, 4], 2⟩ ⟨[1, 2, 3, 5], 2⟩ 3 4 0 0 3 5 0 0
      (by decide) (by decide)).2.1 rfl rfl rfl rfl (by decide),
    (differing_lanes_verdicts ⟨[1, 2, 3, 4], 0⟩ ⟨[1, 2, 3, 5], 0⟩ 1 2 3 4 1 2 3 5
      (by decide) (by decide)).2.2 rfl rfl rfl rfl rfl rfl rfl rfl (by decide)⟩

/-- C2 fails as stated: `+0.0` (all bits clear) against `-0.0` (only the sign bit set) in
lane 0, the other lanes identical, makes the three vector primitives return true (while
`equal_m64` returns false). -/
theorem signed_zero_lanes_counterexample :
    equal_m64 ⟨[0, 1, 2, 3], 0⟩ ⟨[0x8000000000000000, 1, 2, 3], 0⟩ = some false ∧
    equal_m128 ⟨[0, 1, 2, 3], 0⟩ ⟨[0x8000000000000000, 1, 2, 3], 0⟩ = some true ∧
    equal_m256 ⟨[0, 1, 2, 3], 0⟩ ⟨[0x8000000000000000, 1, 2, 3], 0⟩ = some true ∧
    equal_m256_m128 ⟨[0, 1, 2, 3], 0⟩ ⟨[0x8000000000000000, 1, 2, 3], 0⟩ = some true := by
  decide

/-! ## The fixed dataset -/

theorem fix_test_vector_loop_eq (n : Nat) (v : List aligned_quad) :
    fix_test_vector_loop n v
      = v ++ List.replicate n { a := DBL_MAX, b := DBL_MAX, c := DBL_MAX, d := DBL_MAX } := by
  induction n generalizing v with
  | zero => simp [fix_test_vector_loop]
  | succ n ih =>
    rw [fix_test_vector_loop, ih, List.append_assoc, List.replicate_succ]
    rfl

theorem fix_test_vector_eq (length_ : Nat) :
    fix_test_vector length_
      = List.replicate (length_ / 4)
          { a := DBL_MAX, b := DBL_MAX, c := DBL_MAX, d := DBL_MAX } := by
  simp [fix_test_vector, fix_test_vector_loop_eq]

theorem f64_decode_DBL_MAX :
    f64_decode DBL_MAX = F64Val.fin (((2 ^ 53 - 1) * 2 ^ 2045 : Nat) : Int) := by
  have he : f64_exp DBL_MAX = 2046 := by decide
  have hf : f64_frac DBL_MAX = 2 ^ 52 - 1 := by decide
  have hs : f64_sign DBL_MAX = 0 := by decide
  simp only [f64_decode, f64_mag, he, hf, hs]
  rw [if_neg (by decide : ¬(2046 = 2047)), if_neg (by decide : ¬(0 = 1)),
    if_neg (by decide : ¬(2046 = 0))]
  have h1 : (2 ^ 52 + (2 ^ 52 - 1) : Nat) = 2 ^ 53 - 1 := by norm_num
  have h2 : (2046 - 1 : Nat) = 2045 := rfl
  rw [h1, h2]

theorem f64_mag_le (x E : Nat) (hE : 2045 ≤ E) (hne : f64_exp x ≠ 2047) :
    f64_mag x ≤ (2 ^ 53 - 1) * 2 ^ E := by
  have hfr : f64_frac x < 2 ^ 52 := Nat.mod_lt _ (Nat.two_pow_pos _)
  have hex : f64_exp x < 2048 := Nat.mod_lt _ (by norm_num)
  unfold f64_mag
  by_cases he : f64_exp x = 0
  · simp only [he, if_true]
    have h1 : f64_frac x ≤ 2 ^ 53 - 1 := by omega
    exact Nat.le_trans h1 (Nat.le_mul_of_pos_right _ (Nat.two_pow_pos E))
  · simp only [he, if_false]
    exact Nat.mul_le_mul (by omega) (Nat.pow_le_pow_right (by norm_num) (by omega))

/-- No finite double exceeds the value of `DBL_MAX`. -/
theorem f64_decode_le_DBL_MAX (x : Nat) (v : Int) (h : f64_decode x = F64Val.fin v) :
    v ≤ (((2 ^ 53 - 1) * 2 ^ 2045 : Nat) : Int) := by
  unfold f64_decode at h
  by_cases he : f64_exp x = 2047
  · by_cases hf : f64_frac x = 0 <;> simp [he, hf] at h
  · have hm := f64_mag_le x 2045 (Nat.le_refl _) he
    simp only [he, if_false, F64Val.fin.injEq] at h
    split_ifs at h <;> omega

/-- C5: for every length, `fix_test_vector` returns exactly `length / 4` quads (integer
division), and the four fields of every quad hold the bit pattern `0x7FEFFFFFFFFFFFFF` of the
largest finite double. -/
theorem fix_test_vector_quads (length_ : Nat) :
    (fix_test_vector length_).length = length_ / 4 ∧
    ∀ q ∈ fix_test_vector length_,
      q.a = 0x7FEFFFFFFFFFFFFF ∧ q.b = 0x7FEFFFFFFFFFFFFF ∧ q.c = 0x7FEFFFFFFFFFFFFF ∧
        q.d = 0x7FEFFFFFFFFFFFFF := by
  rw [fix_test_vector_eq]
  refine ⟨List.length_replicate _ _, ?_⟩
  intro q hq
  rw [List.eq_of_mem_replicate hq]
  exact ⟨rfl, rfl, rfl, rfl⟩

/-! ## The reported duration -/

/-- C7: for every elapsed microsecond count `e` below `2^64`, the reported duration
`e / 100 * 100` is a multiple of 100, is at most `e`, is less than 100 below `e`, and is the
greatest multiple of 100 that does not exceed `e`. -/
theorem duration_greatest_multiple_of_100 (e : Nat) (he : e < 2 ^ 64) :
    100 ∣ duration e ∧ duration e ≤ e ∧ e - duration e < 100 ∧
      ∀ m, 100 ∣ m → m ≤ e → m ≤ duration e := by
  have h : duration e = e / 100 * 100 := by
    unfold duration
    apply Nat.mod_eq_of_lt
    norm_num at he ⊢
    omega
  rw [h]
  refine ⟨by omega, by omega, by omega, ?_⟩
  intro m hm hle
  omega

theorem duration_greatest_multiple_of_100_witness :
    100 ∣ duration 12399 ∧ duration 12399 ≤ 12399 ∧ 12399 - duration 12399 < 100 ∧
      ∀ m, 100 ∣ m → m ≤ 12399 → m ≤ duration 12399 :=
  duration_greatest_multiple_of_100 12399 (by decide)

/-! ## The scanning loops -/

theorem run_loop_running (step : LoopState → Run) (n : Nat) (s s' : LoopState)
    (h : step s = Run.running s') : run_loop step (n + 1) s = run_loop step n s' := by
  simp only [run_loop, h]

theorem run_loop_exit (step : LoopState → Run) (n : Nat) (s : LoopState) (r : Bool)
    (h : step s = Run.exit r) : run_loop step (n + 1) s = Run.exit r := by
  simp only [run_loop, h]

/-- A scan whose every comparison succeeds exits with `result = true` once it has been given
more rounds than there are strides left. -/
theorem scan_all_true (prim : DoublePtr → DoublePtr → Option Bool) (stride : Nat)
    (ap bp : List Nat) (N : Nat) (hs : 0 < stride) (hN : N < 2 ^ 64)
    (hprim : ∀ j, stride * j < N →
      prim { buf := ap, idx := stride * j } { buf := bp, idx := stride * j } = some true) :
    ∀ m j fuel, stride * j + stride * m = N → m < fuel →
      run_loop (scan_step prim stride ap bp N) fuel { i := stride * j, result := true }
        = Run.exit true := by
  intro m
  induction m with
  | zero =>
    intro j fuel hj hf
    obtain ⟨f, rfl⟩ : ∃ f, fuel = f + 1 := ⟨fuel - 1, by omega⟩
    apply run_loop_exit
    have : ¬(stride * j < N) := by omega
    simp only [scan_step, this, if_false]
  | succ m ih =>
    intro j fuel hj hf
    obtain ⟨f, rfl⟩ : ∃ f, fuel = f + 1 := ⟨fuel - 1, by omega⟩
    rw [Nat.mul_succ] at hj
    have hlt : stride * j < N := by omega
    have hmod : (stride * j + stride) % 2 ^ 64 = stride * (j + 1) := by
      rw [Nat.mul_succ]
      apply Nat.mod_eq_of_lt
      omega
    have hstep : scan_step prim stride ap bp N { i := stride * j, result := true }
        = Run.running { i := stride * (j + 1), result := true } := by
      simp only [scan_step, hlt, if_true, hprim j hlt, hmod, Bool.and_self]
    rw [run_loop_running _ _ _ _ hstep]
    apply ih (j + 1) f
    · rw [Nat.mul_succ]
      omega
    · omega

theorem lane_replicate (n c i k : Nat) (h : i + k < n) :
    DoublePtr.lane { buf := List.replicate n c, idx := i } k = some c := by
  simp [DoublePtr.lane, List.getElem?_replicate, h]

theorem f64_eq_DBL_MAX : f64_eq DBL_MAX DBL_MAX = true := by
  rw [f64_eq_self]
  have : ¬(f64_isNaN DBL_MAX = true) := by
    rw [f64_isNaN_iff]
    decide
  simpa using this

/-- Two buffers of `length` contiguous doubles that all hold `DBL_MAX`, `length` a multiple
of 4, are found equal by every strategy: the loops and the primitives themselves return true
on such data. -/
theorem contiguous_max_buffers_scan_true (length_ : Nat) (h4 : 4 ∣ length_)
    (hlen : length_ < 2 ^ 64) :
    (∀ fuel, length_ < fuel →
      run_loop (scan_step equal_m64 1 (List.replicate length_ DBL_MAX)
        (List.replicate length_ DBL_MAX) length_) fuel loop_init = Run.exit true) ∧
    (∀ fuel, length_ / 2 < fuel →
      run_loop (scan_step equal_m128 2 (List.replicate length_ DBL_MAX)
        (List.replicate length_ DBL_MAX) length_) fuel loop_init = Run.exit true) ∧
    (∀ fuel, length_ / 4 < fuel →
      run_loop (scan_step equal_m256 4 (List.replicate length_ DBL_MAX)
        (List.replicate length_ DBL_MAX) length_) fuel loop_init = Run.exit true) ∧
    (∀ fuel, length_ / 4 < fuel →
      run_loop (scan_step equal_m256_m128 4 (List.replicate length_ DBL_MAX)
        (List.replicate length_ DBL_MAX) length_) fuel loop_init = Run.exit true) := by
  have lane : ∀ i k, i + k < length_ →
      DoublePtr.lane { buf := List.replicate length_ DBL_MAX, idx := i } k = some DBL_MAX :=
    fun i k h => lane_replicate length_ DBL_MAX i k h
  have e : f64_eq DBL_MAX DBL_MAX = true := f64_eq_DBL_MAX
  refine ⟨?_, ?_, ?_, ?_⟩
  · intro fuel hf
    have := scan_all_true equal_m64 1 (List.replicate length_ DBL_MAX)
      (List.replicate length_ DBL_MAX) length_ (by decide) hlen
      (fun j hj => by
        simp only [equal_m64, lane (1 * j) 0 (by omega), decide_True])
      length_ 0 fuel (by omega) hf
    exact this
  · intro fuel hf
    have := scan_all_true equal_m128 2 (List.replicate length_ DBL_MAX)
      (List.replicate length_ DBL_MAX) length_ (by decide) hlen
      (fun j hj => by
        rw [equal_m128_lanes _ _ DBL_MAX DBL_MAX DBL_MAX DBL_MAX
          (lane (2 * j) 0 (by omega)) (lane (2 * j) 1 (by omega))
          (lane (2 * j) 0 (by omega)) (lane (2 * j) 1 (by omega)), e]
        rfl)
      (length_ / 2) 0 fuel (by omega) hf
    exact this
  · intro fuel hf
    have := scan_all_true equal_m256 4 (List.replicate length_ DBL_MAX)
      (List.replicate length_ DBL_MAX) length_ (by decide) hlen
      (fun j hj => by
        rw [equal_m256_lanes _ _ DBL_MAX DBL_MAX DBL_MAX DBL_MAX DBL_MAX DBL_MAX DBL_MAX DBL_MAX
          (lane (4 * j) 0 (by omega)) (lane (4 * j) 1 (by omega))
          (lane (4 * j) 2 (by omega)) (lane (4 * j) 3 (by omega))
          (lane (4 * j) 0 (by omega)) (lane (4 * j) 1 (by omega))
          (lane (4 * j) 2 (by omega)) (lane (4 * j) 3 (by omega)), e]
        rfl)
      (length_ / 4) 0 fuel (by omega) hf
    exact this
  · intro fuel hf
    have := scan_all_true equal_m256_m128 4 (List.replicate length_ DBL_MAX)
      (List.replicate length_ DBL_MAX) length_ (by decide) hlen
      (fun j hj => by
        rw [equal_m256_m128_lanes _ _ DBL_MAX DBL_MAX DBL_MAX DBL_MAX DBL_MAX DBL_MAX DBL_MAX
          DBL_MAX
          (lane (4 * j) 0 (by omega)) (lane (4 * j) 1 (by omega))
          (lane (4 * j) 2 (by omega)) (lane (4 * j) 3 (by omega))
          (lane (4 * j) 0 (by omega)) (lane (4 * j) 1 (by omega))
          (lane (4 * j) 2 (by omega)) (lane (4 * j) 3 (by omega)), e]
        rfl)
      (length_ / 4) 0 fuel (by omega) hf
    exact this

/-! ## The layout of a dataset -/

/-- The fields of quad `j` lie at slots `16 * j`, `16 * j + 4`, `16 * j + 8` and
`16 * j + 12` of the view. -/
theorem data_from_fields (pad : Nat → Nat) (v : List aligned_quad) (o j : Nat)
    (q : aligned_quad) (h : v[j]? = some q) :
    (data_from pad o v)[16 * j]? = some q.a ∧ (data_from pad o v)[16 * j + 4]? = some q.b ∧
      (data_from pad o v)[16 * j + 8]? = some q.c ∧
      (data_from pad o v)[16 * j + 12]? = some q.d := by
  induction v generalizing o j with
  | nil => simp at h
  | cons p v ih =>
    cases j with
    | zero =>
      simp only [List.getElem?_cons_zero, Option.some.injEq] at h
      subst h
      simp [data_from, quad_slots]
    | succ j =>
      simp only [List.getElem?_cons_succ] at h
      have hlen : (quad_slots pad o p).length = 16 := rfl
      obtain ⟨h0, h1, h2, h3⟩ := ih (o + 16) j h
      have shift : ∀ k, (quad_slots pad o p ++ data_from pad (o + 16) v)[16 * (j + 1) + k]?
          = (data_from pad (o + 16) v)[16 * j + k]? := by
        intro k
        rw [List.getElem?_append_right (by rw [hlen]; omega)]
        congr 1
        rw [hlen]
        omega
      simp only [data_from]
      refine ⟨?_, ?_, ?_, ?_⟩
      · exact (shift 0).trans h0
      · rw [shift 4]
        exact h1
      · rw [shift 8]
        exact h2
      · rw [shift 12]
        exact h3

/-- C8 (fails on the code): the `double*` view of the two-quad dataset
`{1, 2, 3, 4}, {5, 6, 7, 8}`, padding slot `i` holding `100 + i`, has 32 elements and not 8;
element 1 is padding and not field `b` of quad 0; element 4 is field `b` of quad 0 and not
field `a` of quad 1, which is element 16. -/
theorem aligned_quad_view_not_contiguous :
    (data (fun i => 100 + i) [⟨1, 2, 3, 4⟩, ⟨5, 6, 7, 8⟩]).length = 32 ∧
    (data (fun i => 100 + i) [⟨1, 2, 3, 4⟩, ⟨5, 6, 7, 8⟩])[1]? = some 101 ∧
    (data (fun i => 100 + i) [⟨1, 2, 3, 4⟩, ⟨5, 6, 7, 8⟩])[4]? = some 2 ∧
    (data (fun i => 100 + i) [⟨1, 2, 3, 4⟩, ⟨5, 6, 7, 8⟩])[16]? = some 5 ∧
    (data (fun i => 100 + i) [⟨1, 2, 3, 4⟩, ⟨5, 6, 7, 8⟩])[28]? = some 8 := by
  decide

/-! ## The fixed dataset against its copy -/

set_option exponentiation.threshold 3000 in
set_option maxRecDepth 100000 in
/-- C6 (fails on the code): for length 40 (10 quads), with every padding slot of the fixed
dataset and of its copy holding the quiet-NaN pattern `0x7FF8000000000000`, the scans over
`i < 40` run to their end; the `equal_m64` pass at stride 1 exits with aggregate result true,
the `equal_m128` pass at stride 2 and the `equal_m256` pass at stride 4 exit with aggregate
result false.  Of the 40 doubles scanned only slots 0, 4, ..., 36 are fields (`a`, `b`, `c` of
the first three quads and `a` of the fourth); the other 30 are padding. -/
theorem fixed_dataset_nan_padding_scans :
    (data (fun _ => 0x7FF8000000000000) (fix_test_vector 40)).length = 160 ∧
    run_loop (scan_step equal_m64 1 (data (fun _ => 0x7FF8000000000000) (fix_test_vector 40))
        (data (fun _ => 0x7FF8000000000000) (fix_test_vector 40)) 40) 40 loop_init
      = Run.running { i := 40, result := true } ∧
    run_loop (scan_step equal_m64 1 (data (fun _ => 0x7FF8000000000000) (fix_test_vector 40))
        (data (fun _ => 0x7FF8000000000000) (fix_test_vector 40)) 40) 41 loop_init
      = Run.exit true ∧
    run_loop (scan_step equal_m128 2 (data (fun _ => 0x7FF8000000000000) (fix_test_vector 40))
        (data (fun _ => 0x7FF8000000000000) (fix_test_vector 40)) 40) 1 loop_init
      = Run.running { i := 2, result := false } ∧
    run_loop (scan_step equal_m128 2 (data (fun _ => 0x7FF8000000000000) (fix_test_vector 40))
        (data (fun _ => 0x7FF8000000000000) (fix_test_vector 40)) 40) 21 loop_init
      = Run.exit false ∧
    run_loop (scan_step equal_m256 4 (data (fun _ => 0x7FF8000000000000) (fix_test_vector 40))
        (data (fun _ => 0x7FF8000000000000) (fix_test_vector 40)) 40) 1 loop_init
      = Run.running { i := 4, result := false } ∧
    run_loop (scan_step equal_m256 4 (data (fun _ => 0x7FF8000000000000) (fix_test_vector 40))
        (data (fun _ => 0x7FF8000000000000) (fix_test_vector 40)) 40) 11 loop_init
      = Run.exit false := by
  decide

/-! ## The self-referential stride -/

theorem run_loop_add (step : LoopState → Run) (a b : Nat) (s s' : LoopState)
    (h : run_loop step a s = Run.running s') :
    run_loop step (a + b) s = run_loop step b s' := by
  induction a generalizing s with
  | zero =>
    simp only [run_loop, Run.running.injEq] at h
    rw [Nat.zero_add, h]
  | succ a ih =>
    rw [Nat.add_right_comm]
    cases hs : step s with
    | running t =>
      rw [run_loop_running _ _ _ _ hs] at h ⊢
      exact ih t h
    | exit r => simp [run_loop, hs] at h
    | fault => simp [run_loop, hs] at h

theorem self_stride_step_equal (rap rbp : List Nat) (N i : Nat) (hN : N < 2 ^ 64) (hi : i < N)
    (h : double_eq { buf := rap, idx := i } { buf := rbp, idx := i } = some true) :
    self_stride_step rap rbp N { i := i, result := true }
      = Run.running { i := i + 1, result := true } := by
  have hmod : (i + 1) % 2 ^ 64 = i + 1 := Nat.mod_eq_of_lt (by omega)
  simp only [self_stride_step, hi, if_true, h, Bool.and_self, hmod]

theorem self_stride_step_unequal (rap rbp : List Nat) (N i : Nat) (b : Bool) (hN : N < 2 ^ 64)
    (hi : i < N)
    (h : double_eq { buf := rap, idx := i } { buf := rbp, idx := i } = some false) :
    self_stride_step rap rbp N { i := i, result := b }
      = Run.running { i := i, result := false } := by
  have hmod : i % 2 ^ 64 = i := Nat.mod_eq_of_lt (by omega)
  simp only [self_stride_step, hi, if_true, h, Bool.and_false, Bool.false_eq_true, if_false,
    Nat.add_zero, hmod]

theorem self_stride_equal_run (rap rbp : List Nat) (N M : Nat) (hN : N < 2 ^ 64) (hM : M ≤ N)
    (h : ∀ i, i < M →
      double_eq { buf := rap, idx := i } { buf := rbp, idx := i } = some true) :
    ∀ j i, i + j ≤ M →
      run_loop (self_stride_step rap rbp N) j { i := i, result := true }
        = Run.running { i := i + j, result := true } := by
  intro j
  induction j with
  | zero =>
    intro i _
    rfl
  | succ j ih =>
    intro i hij
    rw [run_loop_running _ _ _ _
      (self_stride_step_equal rap rbp N i hN (by omega) (h i (by omega))), ih (i + 1) (by omega)]
    congr 2
    omega

theorem self_stride_stalled (rap rbp : List Nat) (N k : Nat) (hN : N < 2 ^ 64) (hk : k < N)
    (h : double_eq { buf := rap, idx := k } { buf := rbp, idx := k } = some false) :
    ∀ n, run_loop (self_stride_step rap rbp N) n { i := k, result := false }
      = Run.running { i := k, result := false } := by
  intro n
  induction n with
  | zero => rfl
  | succ n ih =>
    rw [run_loop_running _ _ _ _ (self_stride_step_unequal rap rbp N k false hN hk h), ih]

/-- C9: in the pass `for (i = 0; i < N; i += result) result = result and (a[i] == b[i])`:
if every pair below `N` compares equal, the loop is at `i = j`, `result = true` after `j`
rounds for every `j ≤ N` and exits with result true at the next test of the condition, so
after exactly `N` rounds; if `k < N` is the least index whose pair compares unequal, the state
`i = k`, `result = false` is reached after `k + 1` rounds, the loop step maps it to itself
with `i < N` still true, and the loop is still running in it after any larger number of
rounds. -/
theorem self_stride_loop (rap rbp : List Nat) (N : Nat) (hN : N < 2 ^ 64) :
    ((∀ i, i < N →
        double_eq { buf := rap, idx := i } { buf := rbp, idx := i } = some true) →
      (∀ j, j ≤ N → run_loop (self_stride_step rap rbp N) j loop_init
          = Run.running { i := j, result := true }) ∧
      (∀ fuel, N < fuel →
        run_loop (self_stride_step rap rbp N) fuel loop_init = Run.exit true)) ∧
    (∀ k, k < N →
      (∀ i, i < k →
        double_eq { buf := rap, idx := i } { buf := rbp, idx := i } = some true) →
      double_eq { buf := rap, idx := k } { buf := rbp, idx := k } = some false →
      run_loop (self_stride_step rap rbp N) (k + 1) loop_init
          = Run.running { i := k, result := false } ∧
        self_stride_step rap rbp N { i := k, result := false }
          = Run.running { i := k, result := false } ∧
        ∀ n, k < n → run_loop (self_stride_step rap rbp N) n loop_init
          = Run.running { i := k, result := false }) := by
  constructor
  · intro h
    have pre : ∀ j, j ≤ N → run_loop (self_stride_step rap rbp N) j loop_init
        = Run.running { i := j, result := true } := by
      intro j hj
      have := self_stride_equal_run rap rbp N N hN (Nat.le_refl _) h j 0 (by omega)
      rw [Nat.zero_add] at this
      exact this
    refine ⟨pre, ?_⟩
    intro fuel hf
    obtain ⟨f, rfl⟩ : ∃ f, fuel = N + (f + 1) := ⟨fuel - N - 1, by omega⟩
    rw [run_loop_add _ N (f + 1) _ _ (pre N (Nat.le_refl _))]
    apply run_loop_exit
    simp [self_stride_step]
  · intro k hk hpre hne
    have reach : run_loop (self_stride_step rap rbp N) k loop_init
        = Run.running { i := k, result := true } := by
      have := self_stride_equal_run rap rbp N k hN (by omega) hpre k 0 (by omega)
      rw [Nat.zero_add] at this
      exact this
    have stall : ∀ n, k < n → run_loop (self_stride_step rap rbp N) n loop_init
        = Run.running { i := k, result := false } := by
      intro n hn
      obtain ⟨m, rfl⟩ : ∃ m, n = k + (m + 1) := ⟨n - k - 1, by omega⟩
      rw [run_loop_add _ k (m + 1) _ _ reach,
        run_loop_running _ _ _ _ (self_stride_step_unequal rap rbp N k true hN hk hne)]
      exact self_stride_stalled rap rbp N k hN hk hne m
    exact ⟨stall (k + 1) (by omega), self_stride_step_unequal rap rbp N k false hN hk hne, stall⟩

theorem self_stride_loop_witness :
    run_loop (self_stride_step [1, 2, 3, 4] [1, 2, 3, 4] 4) 5 loop_init = Run.exit true ∧
    run_loop (self_stride_step [1, 2, 3, 4] [1, 2, 7, 4] 4) 1000 loop_init
      = Run.running { i := 2, result := false } :=
  ⟨((self_stride_loop [1, 2, 3, 4] [1, 2, 3, 4] 4 (by decide)).1 (by decide)).2 5 (by decide),
    ((self_stride_loop [1, 2, 3, 4] [1, 2, 7, 4] 4 (by decide)).2 2 (by decide) (by decide)
      (by decide)).2.2 1000 (by decide)⟩

/-! ## Reads stay inside the datasets -/

/-- The element count of `main` is at least 4 and fits a `std::size_t`. -/
theorem N_main_at_least_4 : 4 ≤ N_main ∧ N_main < 2 ^ 64 := by
  decide

end EqualM128
